import Mathlib

/-!
Shallow embedding of the aws-k8s-tester node-waiter and addon-tester code:
the MNG readiness poller (`eks/mng/wait/wait.go`), the remote hollow-nodes
tester (same file, package `remote`), and the NLB hello-world tester
(`k8s-tester/nlb-hello-world/tester.go`).  Machine ints are modelled as
`Nat`, Kubernetes API calls as injected results or a one-resource state,
and each poll tick of a waiting loop as one element of an observation list.
-/

namespace AwsTester

/-- Node address kinds compared by the source (`v1.NodeHostName`,
`v1.NodeInternalDNS`, and the kinds it skips). -/
inductive AddressType where
  | nodeHostName
  | nodeInternalDNS
  | nodeInternalIP
  | nodeExternalDNS
  | nodeExternalIP
  deriving DecidableEq, Repr

/-- One entry of `node.Status.Addresses`. -/
structure NodeAddress where
  addrType : AddressType
  address : String
  deriving DecidableEq, Repr

/-- `v1.ConditionStatus` as compared against `v1.ConditionTrue`. -/
inductive CondStatus where
  | condTrue
  | condFalse
  | condUnknown
  deriving DecidableEq, Repr

/-- Node condition kinds, compared against `v1.NodeReady`. -/
inductive CondType where
  | nodeReady
  | otherCond (t : String)
  deriving DecidableEq, Repr

/-- One entry of `node.Status.Conditions`. -/
structure NodeCondition where
  condType : CondType
  status : CondStatus
  deriving DecidableEq, Repr

/-- A Kubernetes node as the waiter reads it: name, labels, status
addresses and status conditions. -/
structure KNode where
  name : String
  labels : List (String × String)
  addresses : List NodeAddress
  conditions : List NodeCondition
  deriving DecidableEq, Repr

/-- Go map indexing `labels[k]`: the zero value `""` when the key is absent. -/
def getLabel (n : KNode) (k : String) : String :=
  match n.labels.find? (fun p => p.1 == k) with
  | some p => p.2
  | none => ""

/-- `strings.Split(s, ".")[0]` of wait.go lines 164/219/231: since the
separator is the single character ".", the first element Go's Split returns
is the segment of `s` before its first dot (all of `s` when it has no
dot). -/
def shortHostname (s : String) : String :=
  String.mk (s.data.takeWhile (fun c => c != '.'))

/-- An EC2 instance as recorded in `cur.Instances`. -/
structure Ec2Instance where
  instanceID : String
  privateDNSName : String
  deriving DecidableEq, Repr

/-- wait.go lines 159-165: the `ec2PrivateDNS` set holds, per instance, the
full private DNS name and its first dot-separated segment. -/
def buildIdentitySet (instances : List Ec2Instance) : List String :=
  instances.foldr
    (fun v acc => v.privateDNSName :: shortHostname v.privateDNSName :: acc) []

/-- wait.go lines 216-223 and 228-232: membership of the full candidate
hostname, falling back to its short form. -/
def belongsTo (set : List String) (h : String) : Bool :=
  set.contains h || set.contains (shortHostname h)

/-- wait.go lines 239-253: a node counts as ready when some condition has
status True and type Ready. -/
def nodeIsReady (n : KNode) : Bool :=
  n.conditions.any (fun c =>
    c.status == CondStatus.condTrue && c.condType == CondType.nodeReady)

/-- The kind test of wait.go line 211: Hostname or InternalDNS. -/
def isHostKind (a : NodeAddress) : Bool :=
  a.addrType == AddressType.nodeHostName || a.addrType == AddressType.nodeInternalDNS

/-- wait.go lines 204-224, the loop body with `hostName` as accumulator:
skip addresses of other kinds, record the address, break once it belongs
to the identity set. -/
def selectHostNameLoop (set : List String) : List NodeAddress → String → String
  | [], h => h
  | a :: rest, h =>
    if !(isHostKind a) then selectHostNameLoop set rest h
    else if belongsTo set a.address then a.address
    else selectHostNameLoop set rest a.address

/-- wait.go lines 204-224: the hostname the readiness check settles on for a
node, starting from the empty accumulator. -/
def selectHostName (set : List String) (addrs : List NodeAddress) : String :=
  selectHostNameLoop set addrs ""

/-- Go `%q` formatting of a plain string. -/
def goQuote (s : String) : String := "\"" ++ s ++ "\""

/-- wait.go line 226: `fmt.Errorf("%q not found for node %q", v1.NodeHostName,
nodeName)`. -/
def hostNameErr (nodeName : String) : String :=
  goQuote "Hostname" ++ " not found for node " ++ goQuote nodeName

/-- wait.go lines 183-254: one pass over the node inventory.  Nodes whose
`NGName` label differs from the group are skipped; a node with no
Hostname/InternalDNS address aborts the whole wait with an error; a node
whose selected hostname is outside the identity set is skipped; the rest
count when they carry a true Ready condition. -/
def countReadyNodes (mngName : String) (set : List String) :
    List KNode → Except String Nat
  | [] => Except.ok 0
  | n :: rest =>
    if getLabel n "NGName" != mngName then countReadyNodes mngName set rest
    else
      let hostName := selectHostName set n.addresses
      if hostName = "" then Except.error (hostNameErr n.name)
      else if !(belongsTo set hostName) then countReadyNodes mngName set rest
      else
        match countReadyNodes mngName set rest with
        | Except.error e => Except.error e
        | Except.ok k => Except.ok (if nodeIsReady n then k + 1 else k)

/-- What one 5-second tick of a polling loop observes: the stop channel
fired, the list call failed, or a node inventory came back. -/
inductive PollObs where
  | stopSignal
  | fetchFailed
  | nodeList (ns : List KNode)
  deriving DecidableEq, Repr

/-- The distinguishable exits of `waitForNodes` (wait.go lines 168-297). -/
inductive PollOutcome where
  | success (readies : Nat)
  | timedOut
  | aborted
  | hostErr (msg : String)
  deriving DecidableEq, Repr

/-- wait.go lines 168-294: the readiness loop.  The time budget `waitDur`
is modelled by the length of the observation list (one observation per
tick); exhausting it without reaching `minReady` is the timed-out exit of
lines 295-297.  A failed node list is a no-op iteration (line 180); the
stop channel aborts (line 173); `readies >= cur.ASGMinSize` exits with
success (lines 290-293).  The CSR listing inside the loop only feeds
logging and does not steer control flow. -/
def waitForNodesLoop (mngName : String) (set : List String) (minReady : Nat) :
    List PollObs → PollOutcome
  | [] => PollOutcome.timedOut
  | PollObs.stopSignal :: _ => PollOutcome.aborted
  | PollObs.fetchFailed :: rest => waitForNodesLoop mngName set minReady rest
  | PollObs.nodeList ns :: rest =>
    match countReadyNodes mngName set ns with
    | Except.error e => PollOutcome.hostErr e
    | Except.ok readies =>
      if minReady ≤ readies then PollOutcome.success readies
      else waitForNodesLoop mngName set minReady rest

/-- CSR condition kinds as switched on in `extractCSRStatus`. -/
inductive CSRCondType where
  | certificateApproved
  | certificateDenied
  | otherRequestCond (t : String)
  deriving DecidableEq, Repr

/-- A certificate signing request as `extractCSRStatus` reads it:
condition types and the issued certificate bytes. -/
structure CSR where
  conditions : List CSRCondType
  certificate : List Nat
  deriving DecidableEq, Repr

/-- wait.go lines 305-315: the condition scan with its `approved`/`denied`
flags; a condition of any other type is the early `return ""`, modelled as
`none`. -/
def csrScanConditions : List CSRCondType → Bool → Bool → Option (Bool × Bool)
  | [], approved, denied => some (approved, denied)
  | c :: rest, approved, denied =>
    match c with
    | CSRCondType.certificateApproved => csrScanConditions rest true denied
    | CSRCondType.certificateDenied => csrScanConditions rest approved true
    | CSRCondType.otherRequestCond _ => none

/-- wait.go lines 304-329: Denied before Approved before Pending, then
`,Issued` appended when certificate bytes are present. -/
def extractCSRStatus (csr : CSR) : String :=
  match csrScanConditions csr.conditions false false with
  | none => ""
  | some (approved, denied) =>
    let status := if denied then "Denied"
      else if approved then "Approved"
      else "Pending"
    if csr.certificate.length > 0 then status ++ ",Issued" else status

/-- A Kubernetes API error as the reconciler code distinguishes it: the
AlreadyExists code, the NotFound code, or anything else, each carrying the
`err.Error()` message. -/
inductive ApiErr where
  | alreadyExists
  | notFoundCode (msg : String)
  | otherErr (msg : String)
  deriving DecidableEq, Repr

/-- The `err.Error()` text of an API error. -/
def ApiErr.message : ApiErr → String
  | ApiErr.alreadyExists => "already exists"
  | ApiErr.notFoundCode m => m
  | ApiErr.otherErr m => m

/-- `apierrs.IsAlreadyExists` on a possibly-nil error. -/
def isAlreadyExists : Option ApiErr → Bool
  | some ApiErr.alreadyExists => true
  | _ => false

/-- `apierrs.IsNotFound` on a possibly-nil error. -/
def isNotFound : Option ApiErr → Bool
  | some (ApiErr.notFoundCode _) => true
  | _ => false

/-- Contiguous-sublist test over the character lists. -/
def charsContain : List Char → List Char → Bool
  | _, [] => true
  | [], _ :: _ => false
  | a :: rest, sub => sub.isPrefixOf (a :: rest) || charsContain rest sub

/-- `strings.Contains s sub`: `sub` occurs as a contiguous substring of
`s` (vacuously true for the empty substring, as in Go). -/
def strContains (s sub : String) : Bool :=
  charsContain s.data sub.data

/-- Which API verbs an operation issued. -/
structure OpTrace where
  createCalled : Bool
  updateCalled : Bool
  deriving DecidableEq, Repr

/-- Go `fmt.Errorf("<pre> (%v)", err)` shape. -/
def wrapParen (pre m : String) : String := pre ++ " (" ++ m ++ ")"

/-- wait.go lines 531-541 (and the same shape at 717-726, 786-794, 959-967):
create, and when that fails with AlreadyExists, a full-replace update; the
error left over is wrapped by `wrapMsg`.  The create and update results are
injected; the trace records the verbs issued. -/
def createOrUpdateOp (wrapMsg : String → String)
    (createRes updateRes : Option ApiErr) : Except String Unit × OpTrace :=
  if isAlreadyExists createRes then
    match updateRes with
    | none => (Except.ok (), ⟨true, true⟩)
    | some e => (Except.error (wrapMsg e.message), ⟨true, true⟩)
  else
    match createRes with
    | none => (Except.ok (), ⟨true, false⟩)
    | some e => (Except.error (wrapMsg e.message), ⟨true, false⟩)

/-- wait.go `createServiceAccount` (lines 515-546). -/
def createServiceAccountOp : Option ApiErr → Option ApiErr → Except String Unit × OpTrace :=
  createOrUpdateOp (wrapParen "while creating service account")

/-- wait.go `createRBACClusterRoleBinding` (lines 684-731). -/
def createRBACClusterRoleBindingOp : Option ApiErr → Option ApiErr → Except String Unit × OpTrace :=
  createOrUpdateOp (wrapParen "failed to create kubemark RBAC ClusterRoleBinding")

/-- wait.go `createConfigMap` (lines 761-798); its wrap has no parentheses:
`fmt.Errorf("while creating configmap %v", err)`. -/
def createConfigMapOp : Option ApiErr → Option ApiErr → Except String Unit × OpTrace :=
  createOrUpdateOp (fun m => "while creating configmap " ++ m)

/-- wait.go `createHollowNode` (lines 838-969), the ReplicationController. -/
def createHollowNodeRCOp : Option ApiErr → Option ApiErr → Except String Unit × OpTrace :=
  createOrUpdateOp (wrapParen "failed to create hollow node ReplicationController")

/-- wait.go `createRBACClusterRole` (lines 638-652).  Line 642 reads
`if _, err := client.Create(...); apierrs.IsAlreadyExists(err) {...}`: the
`:=` declares a new `err` scoped to the if-statement, and the update inside
assigns that shadowed variable, so the outer `err` checked at line 645 is
always nil.  The function therefore returns success whatever the create or
update results were; the update is still attempted on AlreadyExists. -/
def createRBACClusterRoleOp (createRes _updateRes : Option ApiErr) :
    Except String Unit × OpTrace :=
  (Except.ok (), ⟨true, isAlreadyExists createRes⟩)

/-- tester.go `createDeployment` (lines 179-251): create only; AlreadyExists
is logged and returns success with no update; other errors are wrapped. -/
def createDeploymentOp (createRes : Option ApiErr) : Except String Unit × OpTrace :=
  match createRes with
  | none => (Except.ok (), ⟨true, false⟩)
  | some ApiErr.alreadyExists => (Except.ok (), ⟨true, false⟩)
  | some e =>
    (Except.error (wrapParen "failed to create NLB hello-world Deployment" e.message),
      ⟨true, false⟩)

/-- tester.go `createService` (lines 291-338): same shape as the deployment. -/
def createServiceOp (createRes : Option ApiErr) : Except String Unit × OpTrace :=
  match createRes with
  | none => (Except.ok (), ⟨true, false⟩)
  | some ApiErr.alreadyExists => (Except.ok (), ⟨true, false⟩)
  | some e =>
    (Except.error (wrapParen "failed to create NLB hello-world Service" e.message),
      ⟨true, false⟩)

/-- The API server's state for one named resource: whether it exists. -/
structure ApiState where
  present : Bool
  deriving DecidableEq, Repr

/-- Kubernetes create: AlreadyExists when the object is present, else the
object comes into being. -/
def apiCreate (s : ApiState) : Option ApiErr × ApiState :=
  if s.present then (some ApiErr.alreadyExists, s) else (none, ⟨true⟩)

/-- Kubernetes full-replace update: NotFound when the object is absent. -/
def apiUpdate (s : ApiState) : Option ApiErr × ApiState :=
  if s.present then (none, s) else (some (ApiErr.notFoundCode "not found"), s)

/-- Kubernetes delete: NotFound when the object is absent. -/
def apiDelete (s : ApiState) : Option ApiErr × ApiState :=
  if s.present then (none, ⟨false⟩) else (some (ApiErr.notFoundCode "not found"), s)

/-- The create-or-update pattern run against the one-resource API state. -/
def runCreateOrUpdate (wrapMsg : String → String) (s : ApiState) :
    Except String Unit × ApiState :=
  let (cr, s1) := apiCreate s
  if isAlreadyExists cr then
    let (ur, s2) := apiUpdate s1
    match ur with
    | none => (Except.ok (), s2)
    | some e => (Except.error (wrapMsg e.message), s2)
  else
    match cr with
    | none => (Except.ok (), s1)
    | some e => (Except.error (wrapMsg e.message), s1)

/-- tester.go `createDeployment` run against the one-resource API state. -/
def runCreateDeployment (s : ApiState) : Except String Unit × ApiState :=
  let (cr, s1) := apiCreate s
  ((createDeploymentOp cr).1, s1)

/-- Deletion propagation policies of `metav1.DeletePropagation`. -/
inductive Propagation where
  | orphanPolicy
  | backgroundPolicy
  | foregroundPolicy
  deriving DecidableEq, Repr

/-- `metav1.DeleteOptions` fields the source sets. -/
structure DeleteOptions where
  gracePeriodSeconds : Option Int
  propagationPolicy : Option Propagation
  deriving DecidableEq, Repr

/-- The options every delete call in the source passes (wait.go lines
560-563, 666-669, 745-748, 810-813, 981-984, 1099-1102): zero grace period
and foreground propagation. -/
def sourceDeleteOptions : DeleteOptions :=
  { gracePeriodSeconds := some 0
    propagationPolicy := some Propagation.foregroundPolicy }

/-- wait.go lines 566-573 (and the same shape at 672-679, 816-822, 987-993):
a delete error is fatal only when it is neither the structured NotFound code
nor carries the substring "not found"; otherwise the delete succeeds. -/
def deleteResourceOp (wrapMsg : String → String) (res : Option ApiErr) :
    Except String Unit :=
  match res with
  | none => Except.ok ()
  | some e =>
    if !(isNotFound (some e)) && !(strContains e.message "not found") then
      Except.error (wrapMsg e.message)
    else Except.ok ()

/-- wait.go `deleteServiceAccount` (lines 550-574). -/
def deleteServiceAccountOp : Option ApiErr → Except String Unit :=
  deleteResourceOp (wrapParen "failed to delete kubemark ServiceAccount")

/-- wait.go `deleteServiceAccount` run against the one-resource API state. -/
def runDeleteServiceAccount (s : ApiState) : Except String Unit × ApiState :=
  let (r, s1) := apiDelete s
  (deleteServiceAccountOp r, s1)

/-- A provisioning step of the remote tester's `Create`: a label for the
trace and the result the step produces when invoked. -/
structure GoStep where
  stepName : String
  result : Except String Unit
  deriving Repr

/-- wait.go line 434: `fmt.Errorf("while executing step %s(), %v",
reflect.TypeOf(step), err)`.  Every step is a `func() error` method value,
so `reflect.TypeOf(step)` renders the same type string for each; the part
that distinguishes the failing step is its own wrapped error. -/
def stepWrap (e : String) : String :=
  "while executing step func() error(), " ++ e

/-- wait.go lines 425-436: run the steps strictly in order, stop at the
first error and wrap it; the returned list records which steps were
invoked, and nothing besides these invocations happens (in particular no
compensating action on the earlier steps). -/
def runSteps : List GoStep → List String × Except String Unit
  | [] => ([], Except.ok ())
  | s :: rest =>
    match s.result with
    | Except.ok _ => ((s.stepName :: (runSteps rest).1), (runSteps rest).2)
    | Except.error e => ([s.stepName], Except.error (stepWrap e))

/-- The injected outcome of each teardown step of the remote tester's
`Delete` (wait.go lines 460-492), `none` meaning the step succeeded. -/
structure TeardownOutcomes where
  rcErr : Option String
  nodesErr : Option String
  cmErr : Option String
  crbErr : Option String
  crErr : Option String
  saErr : Option String
  nsErr : Option String
  deriving DecidableEq, Repr

/-- The persisted progress of the hollow-nodes addon. -/
structure HollowState where
  created : Bool
  deriving DecidableEq, Repr

/-- The error strings wait.go lines 460-492 collect, in call order; the
namespace failure alone is re-wrapped (line 491). -/
def collectTeardownErrs (o : TeardownOutcomes) : List String :=
  (o.rcErr.toList) ++ (o.nodesErr.toList) ++ (o.cmErr.toList) ++
    (o.crbErr.toList) ++ (o.crErr.toList) ++ (o.saErr.toList) ++
    ((o.nsErr.map (wrapParen "failed to delete hollow nodes namespace")).toList)

/-- The teardown steps `Delete` calls, in source order. -/
def teardownStepNames : List String :=
  ["deleteReplicationController", "deleteCreatedNodes", "deleteConfigMap",
    "deleteRBACClusterRoleBinding", "deleteRBACClusterRole",
    "deleteServiceAccount", "deleteNamespaceAndWait"]

/-- wait.go lines 442-501: `Delete` of the remote tester.  With
`created=false` it is a no-op (lines 447-450).  Otherwise every teardown
step runs whatever the earlier ones returned, the failures are joined with
", " into one error (lines 494-496), and `Created` is reset to false only
on the error-free path (line 498).  The returned list names the steps
attempted. -/
def hollowDelete (st : HollowState) (o : TeardownOutcomes) :
    HollowState × List String × Except String Unit :=
  if !st.created then (st, [], Except.ok ())
  else
    let errs := collectTeardownErrs o
    if errs.length > 0 then
      (st, teardownStepNames, Except.error (String.intercalate ", " errs))
    else
      (⟨false⟩, teardownStepNames, Except.ok ())

/-- The hollow-nodes configuration `checkNodes` reads. -/
structure HollowNodesCfg where
  nodes : Nat
  nodeGroups : Nat
  labelPfx : String
  deriving DecidableEq, Repr

/-- wait.go lines 1008-1012: `expectedNodes := Nodes * NodeGroups` followed
by the hardcoded workaround `expectedNodes /= 2`. -/
def expectedNodesOf (cfg : HollowNodesCfg) : Nat :=
  cfg.nodes * cfg.nodeGroups / 2

/-- wait.go lines 1035-1058: hollow nodes counted ready are those whose
`NGName` label starts with the node label prefix and which carry a true
Ready condition. -/
def countHollowReady (pfx : String) (ns : List KNode) : Nat :=
  (ns.filter (fun n => (getLabel n "NGName").startsWith pfx && nodeIsReady n)).length

/-- wait.go lines 1017-1085: the hollow-nodes readiness loop, the time
budget again modelled by the observation list.  Success needs
`readies > 0 && readies >= expectedNodes` (line 1075); exhausting the
budget is the not-ready error of lines 1080-1082; the stop channel aborts
(line 1020); a failed node list is a no-op iteration (line 1029). -/
def checkNodesLoop (cfg : HollowNodesCfg) : List PollObs → Except String Unit
  | [] => Except.error ("NG " ++ goQuote cfg.labelPfx ++ " not ready")
  | PollObs.stopSignal :: _ => Except.error "checking node aborted"
  | PollObs.fetchFailed :: rest => checkNodesLoop cfg rest
  | PollObs.nodeList ns :: rest =>
    let readies := countHollowReady cfg.labelPfx ns
    if 0 < readies ∧ expectedNodesOf cfg ≤ readies then Except.ok ()
    else checkNodesLoop cfg rest

/-- The claim's reading of the address selection: the first address whose
kind is Hostname or InternalDNS, regardless of the identity set. -/
def specFirstHostAddress (addrs : List NodeAddress) : Option String :=
  (addrs.find? isHostKind).map NodeAddress.address

/-- The identity set holds exactly, per instance, the full private DNS name
and its short form. -/
theorem mem_buildIdentitySet (instances : List Ec2Instance) (s : String) :
    s ∈ buildIdentitySet instances ↔
      ∃ i ∈ instances, s = i.privateDNSName ∨ s = shortHostname i.privateDNSName := by
  induction instances with
  | nil => simp [buildIdentitySet]
  | cons v rest ih =>
    simp only [buildIdentitySet, List.foldr_cons, List.mem_cons] at *
    constructor
    · rintro (h | h | h)
      · exact ⟨v, Or.inl rfl, Or.inl h⟩
      · exact ⟨v, Or.inl rfl, Or.inr h⟩
      · obtain ⟨i, hi, hs⟩ := ih.mp h
        exact ⟨i, Or.inr hi, hs⟩
    · rintro ⟨i, (rfl | hi), hs⟩
      · rcases hs with rfl | rfl
        · exact Or.inl rfl
        · exact Or.inr (Or.inl rfl)
      · exact Or.inr (Or.inr (ih.mpr ⟨i, hi, hs⟩))

/-- The membership test passes exactly when the full hostname or its short
form is in the set. -/
theorem belongsTo_iff (set : List String) (h : String) :
    belongsTo set h = true ↔ h ∈ set ∨ shortHostname h ∈ set := by
  simp [belongsTo]

/-- C2: for every list of cloud instances, the identity set contains, per
instance, exactly the full privateDNSName and its segment before the first
dot, and belongsTo holds exactly for candidates whose full or short form is
in the set; for the instance `ip-1-2-3-4.region.compute.internal`,
belongsTo accepts the full name and `ip-1-2-3-4` and rejects
`ip-9-9-9-9`. -/
theorem identity_set_membership :
    (∀ (instances : List Ec2Instance) (s : String),
        s ∈ buildIdentitySet instances ↔
          ∃ i ∈ instances, s = i.privateDNSName ∨ s = shortHostname i.privateDNSName) ∧
    (∀ (set : List String) (h : String),
        belongsTo set h = true ↔ h ∈ set ∨ shortHostname h ∈ set) ∧
    shortHostname "ip-1-2-3-4.region.compute.internal" = "ip-1-2-3-4" ∧
    belongsTo (buildIdentitySet [⟨"i-1", "ip-1-2-3-4.region.compute.internal"⟩])
      "ip-1-2-3-4.region.compute.internal" = true ∧
    belongsTo (buildIdentitySet [⟨"i-1", "ip-1-2-3-4.region.compute.internal"⟩])
      "ip-1-2-3-4" = true ∧
    belongsTo (buildIdentitySet [⟨"i-1", "ip-1-2-3-4.region.compute.internal"⟩])
      "ip-9-9-9-9" = false :=
  ⟨mem_buildIdentitySet, belongsTo_iff, by decide, by decide, by decide, by decide⟩

/-- The condition scan succeeds on lists of known condition types, ending
with the flags recording which types occurred. -/
theorem csrScan_all_known (conds : List CSRCondType) (a d : Bool)
    (h : ∀ c ∈ conds, c = CSRCondType.certificateApproved ∨ c = CSRCondType.certificateDenied) :
    csrScanConditions conds a d =
      some (a || decide (CSRCondType.certificateApproved ∈ conds),
            d || decide (CSRCondType.certificateDenied ∈ conds)) := by
  induction conds generalizing a d with
  | nil => simp [csrScanConditions]
  | cons c rest ih =>
    have hrest : ∀ x ∈ rest,
        x = CSRCondType.certificateApproved ∨ x = CSRCondType.certificateDenied :=
      fun x hx => h x (List.mem_cons_of_mem _ hx)
    rcases h c (List.mem_cons_self _ _) with rfl | rfl <;>
      simp [csrScanConditions, ih _ _ hrest, List.mem_cons]

/-- Any condition of an unrecognised type makes the scan bail out. -/
theorem csrScan_unknown (conds : List CSRCondType) (a d : Bool) (t : String)
    (h : CSRCondType.otherRequestCond t ∈ conds) :
    csrScanConditions conds a d = none := by
  induction conds generalizing a d with
  | nil => cases h
  | cons c rest ih =>
    rcases List.mem_cons.mp h with rfl | hh
    · rfl
    · cases c with
      | certificateApproved => exact ih _ _ hh
      | certificateDenied => exact ih _ _ hh
      | otherRequestCond s => rfl

/-- C3: CSR status classification — Denied wins whenever a Denied condition
is present among recognised conditions, Approved without Denied yields
Approved, the empty condition list yields Pending, `,Issued` is appended
exactly when certificate bytes are present, and any unrecognised condition
type yields the empty status rather than Pending. -/
theorem extractCSRStatus_classification :
    (∀ csr : CSR, CSRCondType.certificateDenied ∈ csr.conditions →
      (∀ c ∈ csr.conditions,
        c = CSRCondType.certificateApproved ∨ c = CSRCondType.certificateDenied) →
      extractCSRStatus csr =
        "Denied" ++ (if csr.certificate.length > 0 then ",Issued" else "")) ∧
    (∀ csr : CSR, CSRCondType.certificateApproved ∈ csr.conditions →
      CSRCondType.certificateDenied ∉ csr.conditions →
      (∀ c ∈ csr.conditions,
        c = CSRCondType.certificateApproved ∨ c = CSRCondType.certificateDenied) →
      extractCSRStatus csr =
        "Approved" ++ (if csr.certificate.length > 0 then ",Issued" else "")) ∧
    (∀ csr : CSR, csr.conditions = [] →
      extractCSRStatus csr =
        "Pending" ++ (if csr.certificate.length > 0 then ",Issued" else "")) ∧
    (∀ (csr : CSR) (t : String), CSRCondType.otherRequestCond t ∈ csr.conditions →
      extractCSRStatus csr = "") ∧
    extractCSRStatus ⟨[CSRCondType.certificateApproved], [0]⟩ = "Approved,Issued" ∧
    extractCSRStatus ⟨[CSRCondType.certificateDenied, CSRCondType.certificateApproved], []⟩ =
      "Denied" ∧
    extractCSRStatus ⟨[], []⟩ = "Pending" := by
  refine ⟨?_, ?_, ?_, ?_, by decide, by decide, by decide⟩
  · intro csr hd hall
    rw [extractCSRStatus, csrScan_all_known _ _ _ hall]
    simp [hd]
    split <;> rfl
  · intro csr ha hd hall
    rw [extractCSRStatus, csrScan_all_known _ _ _ hall]
    simp [ha, hd]
    split <;> rfl
  · intro csr hnil
    rw [extractCSRStatus, hnil]
    simp only [csrScanConditions]
    split <;> rfl
  · intro csr t ht
    rw [extractCSRStatus, csrScan_unknown _ _ _ _ ht]

/-- What the selection loop computes for any accumulator: the first
kind-matching address accepted by the membership test, else the last
kind-matching address, else the accumulator. -/
theorem selectHostNameLoop_eq (set : List String) (addrs : List NodeAddress) (h : String) :
    selectHostNameLoop set addrs h =
      match addrs.find? (fun a => isHostKind a && belongsTo set a.address) with
      | some a => a.address
      | none => ((addrs.filter isHostKind).map NodeAddress.address).getLastD h := by
  induction addrs generalizing h with
  | nil => rfl
  | cons a rest ih =>
    by_cases hk : isHostKind a = true
    · by_cases hb : belongsTo set a.address = true
      · simp only [selectHostNameLoop, hk, hb, Bool.not_true, Bool.false_eq_true,
          if_false, if_true, List.find?_cons, Bool.and_self]
      · have hb' : belongsTo set a.address = false := by
          cases hbb : belongsTo set a.address
          · rfl
          · exact absurd hbb hb
        simp only [selectHostNameLoop, hk, hb', Bool.not_true, Bool.false_eq_true,
          if_false, List.find?_cons, Bool.and_false, List.filter_cons, if_true,
          List.map_cons, List.getLastD_cons]
        rw [ih]
    · have hk' : isHostKind a = false := by
        cases hkk : isHostKind a
        · rfl
        · exact absurd hkk hk
      simp only [selectHostNameLoop, hk', Bool.not_false, if_true, List.find?_cons,
        Bool.false_and, List.filter_cons, Bool.false_eq_true, if_false]
      rw [ih]

/-- C5 counterexample: with the identity set `{"host-b"}` and addresses
`[Hostname "host-a", InternalDNS "host-b"]`, the loop selects `host-b`,
not the first address of matching kind (`host-a`) the claim prescribes. -/
theorem selectHostName_not_first_kind_match :
    selectHostName ["host-b"]
      [⟨AddressType.nodeHostName, "host-a"⟩, ⟨AddressType.nodeInternalDNS, "host-b"⟩] =
      "host-b" ∧
    specFirstHostAddress
      [⟨AddressType.nodeHostName, "host-a"⟩, ⟨AddressType.nodeInternalDNS, "host-b"⟩] =
      some "host-a" ∧
    ("host-b" : String) ≠ "host-a" :=
  ⟨by decide, by decide, by decide⟩

/-- C5 (amended): the hostname selected is the first address of kind
Hostname or InternalDNS that passes the identity-set membership test; when
none passes it is the last address of either kind; and a group-matching
node with no address of either kind fails the whole check with an error
naming the node. -/
theorem selectHostName_corrected :
    (∀ (set : List String) (addrs : List NodeAddress) (a : NodeAddress),
        addrs.find? (fun x => isHostKind x && belongsTo set x.address) = some a →
        selectHostName set addrs = a.address) ∧
    (∀ (set : List String) (addrs : List NodeAddress),
        addrs.find? (fun x => isHostKind x && belongsTo set x.address) = none →
        selectHostName set addrs =
          ((addrs.filter isHostKind).map NodeAddress.address).getLastD "") ∧
    (∀ (mngName : String) (set : List String) (n : KNode) (rest : List KNode),
        getLabel n "NGName" = mngName →
        n.addresses.filter isHostKind = [] →
        countReadyNodes mngName set (n :: rest) = Except.error (hostNameErr n.name)) := by
  refine ⟨?_, ?_, ?_⟩
  · intro set addrs a hfind
    rw [selectHostName, selectHostNameLoop_eq, hfind]
  · intro set addrs hfind
    rw [selectHostName, selectHostNameLoop_eq, hfind]
  · intro mngName set n rest hlabel hnone
    have hfind : n.addresses.find? (fun x => isHostKind x && belongsTo set x.address) = none := by
      cases hf : n.addresses.find? (fun x => isHostKind x && belongsTo set x.address) with
      | none => rfl
      | some a =>
        have hmem := List.mem_filter.mpr
          ⟨List.mem_of_find?_eq_some hf, by
            have := List.find?_some hf
            exact (Bool.and_eq_true _ _).mp this |>.1⟩
        rw [hnone] at hmem
        cases hmem
    have hsel : selectHostName set n.addresses = "" := by
      rw [selectHostName, selectHostNameLoop_eq, hfind, hnone]
      rfl
    simp only [countReadyNodes, hlabel, bne_self_eq_false, Bool.false_eq_true, if_false,
      hsel, if_true]

/-- A successful count is the number of nodes that pass the group filter,
the membership test on their selected hostname, and the Ready check. -/
theorem countReadyNodes_ok_filter (mngName : String) (set : List String)
    (ns : List KNode) (r : Nat) (h : countReadyNodes mngName set ns = Except.ok r) :
    r = (ns.filter (fun n => getLabel n "NGName" == mngName &&
          belongsTo set (selectHostName set n.addresses) && nodeIsReady n)).length := by
  induction ns generalizing r with
  | nil =>
    simp only [countReadyNodes, Except.ok.injEq] at h
    subst h
    rfl
  | cons n rest ih =>
    by_cases hl : (getLabel n "NGName" == mngName) = true
    · simp only [countReadyNodes, bne, hl, Bool.not_true, Bool.false_eq_true, if_false] at h
      by_cases he : selectHostName set n.addresses = ""
      · rw [if_pos he] at h
        cases h
      · rw [if_neg he] at h
        by_cases hb : belongsTo set (selectHostName set n.addresses) = true
        · rw [hb] at h
          simp only [Bool.not_true, Bool.false_eq_true, if_false] at h
          cases hrec : countReadyNodes mngName set rest with
          | error e => rw [hrec] at h; cases h
          | ok k =>
            rw [hrec] at h
            simp only [Except.ok.injEq] at h
            subst h
            rw [List.filter_cons]
            simp only [hl, hb, Bool.and_self, Bool.true_and]
            cases hr : nodeIsReady n <;> simp [ih _ hrec]
        · have hb' : belongsTo set (selectHostName set n.addresses) = false := by
            cases hbb : belongsTo set (selectHostName set n.addresses)
            · rfl
            · exact absurd hbb hb
          rw [hb'] at h
          simp only [Bool.not_false, if_true] at h
          rw [List.filter_cons]
          simp only [hl, hb', Bool.true_and, Bool.and_false, Bool.false_and,
            Bool.false_eq_true, if_false]
          exact ih _ h
    · have hl' : (getLabel n "NGName" == mngName) = false := by
        cases hll : (getLabel n "NGName" == mngName)
        · rfl
        · exact absurd hll hl
      simp only [countReadyNodes, bne, hl', Bool.not_false, if_true] at h
      rw [List.filter_cons]
      simp only [hl', Bool.false_and, Bool.false_eq_true, if_false]
      exact ih _ h

/-- C1: the readiness poller exits successfully only when some iteration
counted at least `minReady` (the ASGMinSize) nodes passing the group
filter, the identity-set membership test, and the true-Ready check; when
every iteration in the time budget counts fewer (and no stop signal
arrives), the poller exits with the timed-out failure, not success. -/
theorem waitForNodes_readiness_threshold :
    (∀ (mngName : String) (set : List String) (minReady : Nat)
        (hist : List PollObs) (r : Nat),
        waitForNodesLoop mngName set minReady hist = PollOutcome.success r →
        minReady ≤ r ∧
        ∃ ns, PollObs.nodeList ns ∈ hist ∧ countReadyNodes mngName set ns = Except.ok r ∧
          r = (ns.filter (fun n => getLabel n "NGName" == mngName &&
                belongsTo set (selectHostName set n.addresses) && nodeIsReady n)).length) ∧
    (∀ (mngName : String) (set : List String) (minReady : Nat) (hist : List PollObs),
        PollObs.stopSignal ∉ hist →
        (∀ ns, PollObs.nodeList ns ∈ hist →
          ∃ r, countReadyNodes mngName set ns = Except.ok r ∧ r < minReady) →
        waitForNodesLoop mngName set minReady hist = PollOutcome.timedOut) := by
  constructor
  · intro mngName set minReady hist
    induction hist with
    | nil => intro r h; cases h
    | cons obs rest ih =>
      intro r h
      cases obs with
      | stopSignal => cases h
      | fetchFailed =>
        obtain ⟨hle, ns, hmem, hcount, hfil⟩ := ih r h
        exact ⟨hle, ns, List.mem_cons_of_mem _ hmem, hcount, hfil⟩
      | nodeList ns =>
        simp only [waitForNodesLoop] at h
        cases hcount : countReadyNodes mngName set ns with
        | error e => rw [hcount] at h; cases h
        | ok readies =>
          rw [hcount] at h
          simp only at h
          by_cases hge : minReady ≤ readies
          · rw [if_pos hge] at h
            cases h
            exact ⟨hge, ns, List.mem_cons_self _ _, hcount,
              countReadyNodes_ok_filter _ _ _ _ hcount⟩
          · rw [if_neg hge] at h
            obtain ⟨hle, ms, hmem, hc, hfil⟩ := ih r h
            exact ⟨hle, ms, List.mem_cons_of_mem _ hmem, hc, hfil⟩
  · intro mngName set minReady hist hstop hsmall
    induction hist with
    | nil => rfl
    | cons obs rest ih =>
      cases obs with
      | stopSignal => exact absurd (List.mem_cons_self _ _) hstop
      | fetchFailed =>
        exact ih (fun hm => hstop (List.mem_cons_of_mem _ hm))
          (fun ns hm => hsmall ns (List.mem_cons_of_mem _ hm))
      | nodeList ns =>
        obtain ⟨r, hok, hlt⟩ := hsmall ns (List.mem_cons_self _ _)
        simp only [waitForNodesLoop, hok]
        rw [if_neg (Nat.not_le.mpr hlt)]
        exact ih (fun hm => hstop (List.mem_cons_of_mem _ hm))
          (fun ms hm => hsmall ms (List.mem_cons_of_mem _ hm))

/-- C7: the step executor runs steps strictly in order, stops at the first
error without invoking any later step, returns the failing step's wrapped
error, performs no action besides the recorded invocations (no rollback),
and on [ok, fail, ok] stops after step 2 with step 3 never invoked. -/
theorem runSteps_fail_fast :
    (∀ (pre : List GoStep) (f : GoStep) (post : List GoStep) (e : String),
        (∀ s ∈ pre, s.result = Except.ok ()) →
        f.result = Except.error e →
        runSteps (pre ++ f :: post) =
          (pre.map GoStep.stepName ++ [f.stepName], Except.error (stepWrap e))) ∧
    (∀ steps : List GoStep, (∀ s ∈ steps, s.result = Except.ok ()) →
        runSteps steps = (steps.map GoStep.stepName, Except.ok ())) ∧
    runSteps [⟨"createServiceAccount", Except.ok ()⟩,
        ⟨"createRBACClusterRole", Except.error "boom"⟩,
        ⟨"createRBACClusterRoleBinding", Except.ok ()⟩] =
      (["createServiceAccount", "createRBACClusterRole"],
        Except.error (stepWrap "boom")) := by
  refine ⟨?_, ?_, rfl⟩
  · intro pre f post e hpre hf
    induction pre with
    | nil => simp [runSteps, hf]
    | cons s rest ih =>
      have hs := hpre s (List.mem_cons_self _ _)
      have hih := ih (fun x hx => hpre x (List.mem_cons_of_mem _ hx))
      simp [runSteps, hs, hih]
  · intro steps h
    induction steps with
    | nil => rfl
    | cons s rest ih =>
      have hs := h s (List.mem_cons_self _ _)
      have := ih (fun x hx => h x (List.mem_cons_of_mem _ hx))
      simp only [runSteps, hs, this, List.map_cons]

/-- The collected teardown errors vanish exactly when every step
succeeded. -/
theorem collectTeardownErrs_eq_nil (o : TeardownOutcomes) :
    collectTeardownErrs o = [] ↔
      o.rcErr = none ∧ o.nodesErr = none ∧ o.cmErr = none ∧ o.crbErr = none ∧
      o.crErr = none ∧ o.saErr = none ∧ o.nsErr = none := by
  obtain ⟨rc, nds, cm, crb, cr, sa, nsp⟩ := o
  simp only [collectTeardownErrs, List.append_eq_nil]
  cases rc <;> cases nds <;> cases cm <;> cases crb <;> cases cr <;> cases sa <;>
    cases nsp <;> simp

/-- C8: teardown attempts every step whatever the earlier outcomes, the
`created` flag is cleared exactly when no step failed, the run succeeds
exactly when the flag is cleared, every step failure shows up in the
collected errors that form the one combined error, and a failed teardown
leaves `created=true`. -/
theorem hollowDelete_aggregates_errors :
    (∀ o : TeardownOutcomes, (hollowDelete ⟨true⟩ o).2.1 = teardownStepNames) ∧
    (∀ o : TeardownOutcomes,
        ((hollowDelete ⟨true⟩ o).1.created = false ↔
          o.rcErr = none ∧ o.nodesErr = none ∧ o.cmErr = none ∧ o.crbErr = none ∧
          o.crErr = none ∧ o.saErr = none ∧ o.nsErr = none)) ∧
    (∀ o : TeardownOutcomes,
        ((hollowDelete ⟨true⟩ o).2.2 = Except.ok () ↔
          (hollowDelete ⟨true⟩ o).1.created = false)) ∧
    (∀ (o : TeardownOutcomes) (m : String),
        o.rcErr = some m ∨ o.nodesErr = some m ∨ o.cmErr = some m ∨ o.crbErr = some m ∨
          o.crErr = some m ∨ o.saErr = some m →
        m ∈ collectTeardownErrs o) ∧
    (∀ (o : TeardownOutcomes) (m : String), o.nsErr = some m →
        wrapParen "failed to delete hollow nodes namespace" m ∈ collectTeardownErrs o) ∧
    (∀ o : TeardownOutcomes, collectTeardownErrs o ≠ [] →
        hollowDelete ⟨true⟩ o =
          (⟨true⟩, teardownStepNames,
            Except.error (String.intercalate ", " (collectTeardownErrs o)))) ∧
    (∀ o : TeardownOutcomes, hollowDelete ⟨false⟩ o = (⟨false⟩, [], Except.ok ())) := by
  refine ⟨?_, ?_, ?_, ?_, ?_, ?_, fun o => rfl⟩
  · intro o
    simp only [hollowDelete, Bool.not_true, Bool.false_eq_true, if_false]
    by_cases h : (collectTeardownErrs o).length > 0
    · rw [if_pos h]
    · rw [if_neg h]
  · intro o
    simp only [hollowDelete, Bool.not_true, Bool.false_eq_true, if_false]
    by_cases h : (collectTeardownErrs o).length > 0
    · rw [if_pos h]
      simp only [show (true = false) ↔ False by simp, false_iff]
      intro hall
      rw [(collectTeardownErrs_eq_nil o).mpr hall] at h
      exact absurd h (by simp)
    · rw [if_neg h]
      have : collectTeardownErrs o = [] := by
        cases hc : collectTeardownErrs o with
        | nil => rfl
        | cons a l => rw [hc] at h; exact absurd (by simp) h
      simp [collectTeardownErrs_eq_nil o |>.mp this]
  · intro o
    simp only [hollowDelete, Bool.not_true, Bool.false_eq_true, if_false]
    by_cases h : (collectTeardownErrs o).length > 0
    · rw [if_pos h]
      simp
    · rw [if_neg h]
      simp
  · intro o m hm
    simp only [collectTeardownErrs, List.mem_append]
    rcases hm with h | h | h | h | h | h
    · exact Or.inl (Or.inl (Or.inl (Or.inl (Or.inl (Or.inl (by simp [h]))))))
    · exact Or.inl (Or.inl (Or.inl (Or.inl (Or.inl (Or.inr (by simp [h]))))))
    · exact Or.inl (Or.inl (Or.inl (Or.inl (Or.inr (by simp [h])))))
    · exact Or.inl (Or.inl (Or.inl (Or.inr (by simp [h]))))
    · exact Or.inl (Or.inl (Or.inr (by simp [h])))
    · exact Or.inl (Or.inr (by simp [h]))
  · intro o m hm
    simp only [collectTeardownErrs, List.mem_append]
    exact Or.inr (by simp [hm])
  · intro o hne
    simp only [hollowDelete, Bool.not_true, Bool.false_eq_true, if_false]
    rw [if_pos]
    cases hc : collectTeardownErrs o with
    | nil => exact absurd hc hne
    | cons a l => simp [hc]

/-- C9: the hollow-nodes readiness loop compares its ready count against
`Nodes * NodeGroups` halved by integer division — the hardcoded workaround
of the source — at every node-list iteration; e.g. 5 configured nodes in
one group yield an expected threshold of 2, and a single node yields 0. -/
theorem checkNodes_expected_threshold :
    (∀ (cfg : HollowNodesCfg) (ns : List KNode) (rest : List PollObs),
        checkNodesLoop cfg (PollObs.nodeList ns :: rest) =
          if 0 < countHollowReady cfg.labelPfx ns ∧
              cfg.nodes * cfg.nodeGroups / 2 ≤ countHollowReady cfg.labelPfx ns
          then Except.ok () else checkNodesLoop cfg rest) ∧
    (∀ cfg : HollowNodesCfg, expectedNodesOf cfg = cfg.nodes * cfg.nodeGroups / 2) ∧
    expectedNodesOf ⟨5, 1, "fake"⟩ = 2 ∧
    expectedNodesOf ⟨1, 1, "fake"⟩ = 0 :=
  ⟨fun _ _ _ => rfl, fun _ => rfl, rfl, rfl⟩

/-- C10: hollow-nodes readiness can only succeed at an iteration with a
strictly positive ready count (even when the halved threshold is 0), and a
history whose node lists never show a ready matching node always ends in
an error. -/
theorem checkNodes_success_needs_ready_node :
    (∀ (cfg : HollowNodesCfg) (hist : List PollObs),
        checkNodesLoop cfg hist = Except.ok () →
        ∃ ns, PollObs.nodeList ns ∈ hist ∧ 0 < countHollowReady cfg.labelPfx ns ∧
          expectedNodesOf cfg ≤ countHollowReady cfg.labelPfx ns) ∧
    (∀ (cfg : HollowNodesCfg) (hist : List PollObs),
        (∀ ns, PollObs.nodeList ns ∈ hist → countHollowReady cfg.labelPfx ns = 0) →
        ∃ m, checkNodesLoop cfg hist = Except.error m) := by
  constructor
  · intro cfg hist
    induction hist with
    | nil => intro h; cases h
    | cons obs rest ih =>
      intro h
      cases obs with
      | stopSignal => cases h
      | fetchFailed =>
        obtain ⟨ns, hm, h0, he⟩ := ih h
        exact ⟨ns, List.mem_cons_of_mem _ hm, h0, he⟩
      | nodeList ns =>
        simp only [checkNodesLoop] at h
        by_cases hc : 0 < countHollowReady cfg.labelPfx ns ∧
            expectedNodesOf cfg ≤ countHollowReady cfg.labelPfx ns
        · exact ⟨ns, List.mem_cons_self _ _, hc.1, hc.2⟩
        · rw [if_neg hc] at h
          obtain ⟨ms, hm, h0, he⟩ := ih h
          exact ⟨ms, List.mem_cons_of_mem _ hm, h0, he⟩
  · intro cfg hist hzero
    induction hist with
    | nil => exact ⟨_, rfl⟩
    | cons obs rest ih =>
      cases obs with
      | stopSignal => exact ⟨_, rfl⟩
      | fetchFailed => exact ih (fun ns hm => hzero ns (List.mem_cons_of_mem _ hm))
      | nodeList ns =>
        have h0 := hzero ns (List.mem_cons_self _ _)
        obtain ⟨m, hm⟩ := ih (fun ms hmm => hzero ms (List.mem_cons_of_mem _ hmm))
        refine ⟨m, ?_⟩
        simp only [checkNodesLoop, h0]
        rw [if_neg (by simp)]
        exact hm

/-- C4 counterexample: the deployment create treats AlreadyExists as plain
success without issuing any update, the service create behaves the same,
and the cluster-role create returns success even for a non-AlreadyExists
failure — three behaviours the claim rules out. -/
theorem createDeployment_alreadyExists_no_update :
    createDeploymentOp (some ApiErr.alreadyExists) = (Except.ok (), ⟨true, false⟩) ∧
    (createDeploymentOp (some ApiErr.alreadyExists)).2.updateCalled = false ∧
    createServiceOp (some ApiErr.alreadyExists) = (Except.ok (), ⟨true, false⟩) ∧
    (createRBACClusterRoleOp (some (ApiErr.otherErr "request failed")) none).1 =
      Except.ok () :=
  ⟨rfl, rfl, rfl, rfl⟩

/-- C4 (amended): the service-account, cluster-role-binding, config-map and
replication-controller creates follow create-then-full-replace-update with
other failures wrapped; the deployment and service creates treat
AlreadyExists as success without updating and wrap other failures; the
cluster-role create always reports success because of the shadowed error
variable (still attempting the update on AlreadyExists); and a second
invocation with an identical spec yields no error for every operation. -/
theorem createOrUpdate_corrected :
    (∀ wrapMsg : String → String,
        createOrUpdateOp wrapMsg (some ApiErr.alreadyExists) none =
          (Except.ok (), ⟨true, true⟩)) ∧
    (∀ (wrapMsg : String → String) (e : ApiErr),
        createOrUpdateOp wrapMsg (some ApiErr.alreadyExists) (some e) =
          (Except.error (wrapMsg e.message), ⟨true, true⟩)) ∧
    (∀ (wrapMsg : String → String) (u : Option ApiErr),
        createOrUpdateOp wrapMsg none u = (Except.ok (), ⟨true, false⟩)) ∧
    (∀ (wrapMsg : String → String) (m : String) (u : Option ApiErr),
        createOrUpdateOp wrapMsg (some (ApiErr.otherErr m)) u =
          (Except.error (wrapMsg m), ⟨true, false⟩)) ∧
    (∀ (wrapMsg : String → String) (m : String) (u : Option ApiErr),
        createOrUpdateOp wrapMsg (some (ApiErr.notFoundCode m)) u =
          (Except.error (wrapMsg m), ⟨true, false⟩)) ∧
    (∀ (c u : Option ApiErr), (createRBACClusterRoleOp c u).1 = Except.ok ()) ∧
    (∀ (c u : Option ApiErr),
        (createRBACClusterRoleOp c u).2.updateCalled = isAlreadyExists c) ∧
    createDeploymentOp (some ApiErr.alreadyExists) = (Except.ok (), ⟨true, false⟩) ∧
    (∀ m : String, createDeploymentOp (some (ApiErr.otherErr m)) =
        (Except.error (wrapParen "failed to create NLB hello-world Deployment" m),
          ⟨true, false⟩)) ∧
    createServiceOp (some ApiErr.alreadyExists) = (Except.ok (), ⟨true, false⟩) ∧
    (∀ m : String, createServiceOp (some (ApiErr.otherErr m)) =
        (Except.error (wrapParen "failed to create NLB hello-world Service" m),
          ⟨true, false⟩)) ∧
    (∀ (wrapMsg : String → String) (s : ApiState),
        (runCreateOrUpdate wrapMsg (runCreateOrUpdate wrapMsg s).2).1 = Except.ok ()) ∧
    (∀ s : ApiState, (runCreateDeployment (runCreateDeployment s).2).1 = Except.ok ()) := by
  refine ⟨fun _ => rfl, fun _ _ => rfl, ?_, fun _ _ _ => rfl, fun _ _ _ => rfl,
    fun _ _ => rfl, fun _ _ => rfl, rfl, fun _ => rfl, rfl, fun _ => rfl, ?_, ?_⟩
  · intro wrapMsg u
    cases u <;> rfl
  · intro wrapMsg s
    obtain ⟨p⟩ := s
    cases p <;> rfl
  · intro s
    obtain ⟨p⟩ := s
    cases p <;> rfl

/-- C6: every delete passes foreground propagation with a zero grace
period; a delete whose error carries the structured NotFound code or the
"not found" message substring returns success, any other failure is
wrapped and returned, and deleting an already-absent resource yields no
error. -/
theorem delete_notFound_is_success :
    sourceDeleteOptions.gracePeriodSeconds = some 0 ∧
    sourceDeleteOptions.propagationPolicy = some Propagation.foregroundPolicy ∧
    deleteServiceAccountOp none = Except.ok () ∧
    (∀ m : String, deleteServiceAccountOp (some (ApiErr.notFoundCode m)) = Except.ok ()) ∧
    (∀ m : String, strContains m "not found" = true →
        deleteServiceAccountOp (some (ApiErr.otherErr m)) = Except.ok ()) ∧
    (∀ m : String, strContains m "not found" = false →
        deleteServiceAccountOp (some (ApiErr.otherErr m)) =
          Except.error (wrapParen "failed to delete kubemark ServiceAccount" m)) ∧
    runDeleteServiceAccount ⟨false⟩ = (Except.ok (), ⟨false⟩) := by
  refine ⟨rfl, rfl, rfl, fun m => rfl, ?_, ?_, ?_⟩
  · intro m hm
    simp [deleteServiceAccountOp, deleteResourceOp, isNotFound, ApiErr.message, hm]
  · intro m hm
    simp [deleteServiceAccountOp, deleteResourceOp, isNotFound, ApiErr.message, hm]
  · have : strContains "not found" "not found" = true := by decide
    simp [runDeleteServiceAccount, apiDelete, deleteServiceAccountOp, deleteResourceOp,
      isNotFound, ApiErr.message, this]

end AwsTester
